import Mathlib

/-!
Verification development for a browser-based pixel-sonification instrument.

The repository has two variants of the instrument:
* `App.svelte` (file `app.sveltep`): bounce-boundary cursor, scale-quantized
  discrete note triggering with a minimum inter-onset interval, sample points
  computed by `updateSamplePoints`, pixel brightness via `getBrightnessAtPoint`
  and neighborhood contrast via `getContrastAroundPoint`.
* `AudioVisualizer.svelte`: wrap-boundary cursor, continuous exponential pitch
  mapping, live-resizable synth pool (`updateVoiceCount`), per-tick sampling in
  `updateAudio`.

Numbers that are floating point in the JavaScript source are modelled as exact
rationals (`ℚ`); frequencies, which involve `Math.pow(2, ·)` with non-integer
exponents, live in `ℝ`.  A JavaScript out-of-bounds array read evaluates to
`undefined` and poisons subsequent arithmetic with `NaN`; such reads are
modelled with `Option` (`none` = undefined/NaN).
-/

/-- The twelve pitch classes offered by both control panels. -/
inductive PitchClass
  | C | Cs | D | Ds | E | F | Fs | G | Gs | A | As | B
deriving DecidableEq

/-- The four oscillator waveforms offered by both control panels. -/
inductive Waveform
  | sine | square | sawtooth | triangle
deriving DecidableEq

/-- The input modes of `AudioVisualizer.svelte` (`inputType`). -/
inductive InputType
  | image | video | webcam | screen
deriving DecidableEq

/-- `noteFrequencies` from `AudioVisualizer.svelte`: the equal-tempered
frequency of each pitch class in the reference octave (A = 440 Hz). -/
def noteFrequencies : PitchClass → ℚ
  | .C => 261.63
  | .Cs => 277.18
  | .D => 293.66
  | .Ds => 311.13
  | .E => 329.63
  | .F => 349.23
  | .Fs => 369.99
  | .G => 392.00
  | .Gs => 415.30
  | .A => 440.00
  | .As => 466.16
  | .B => 493.88

/-- The scale names of the `scales` table in `App.svelte`. -/
inductive ScaleName
  | major | minor | pentatonic | chromatic
deriving DecidableEq

/-- The `scales` table of `App.svelte`: semitone offsets, closed at the
octave (last entry 12). -/
def scales : ScaleName → List ℤ
  | .major => [0, 2, 4, 5, 7, 9, 11, 12]
  | .minor => [0, 2, 3, 5, 7, 8, 10, 12]
  | .pentatonic => [0, 2, 4, 7, 9, 12]
  | .chromatic => [0, 1, 2, 3, 4, 5, 6, 7, 8, 9, 10, 11, 12]

/-- A decoded frame: `width`/`height` of the canvas and the flat RGBA byte
array `imageData.data` (4 bytes per pixel, row-major). -/
structure Frame where
  width : ℕ
  height : ℕ
  data : List ℕ
deriving DecidableEq

/-- A frame is well formed when its byte array has exactly `4 * width * height`
entries and every entry is a byte. -/
def Frame.WellFormed (f : Frame) : Prop :=
  f.data.length = 4 * f.width * f.height ∧ ∀ c ∈ f.data, c ≤ 255

instance (f : Frame) : Decidable f.WellFormed := by
  unfold Frame.WellFormed
  infer_instance

/-- One `Tone.Synth` voice as far as the pool logic observes it: its volume
(dB) and oscillator waveform. -/
structure Synth where
  volume : ℚ
  oscType : Waveform
deriving DecidableEq

/-- The `controls` record of `AudioVisualizer.svelte` (the fields the
sonification tick reads). -/
structure VisControls where
  volume : ℚ
  octave : ℤ
  baseNote : PitchClass
  cursorSpeed : ℚ
  oscillatorType : Waveform
  voiceCount : ℕ
deriving DecidableEq

/-- A JavaScript typed-array read `data[idx]`: defined exactly when the index
is in bounds, `undefined` (modelled `none`) otherwise. -/
def readChannel (data : List ℕ) (idx : ℤ) : Option ℕ :=
  if h : 0 ≤ idx ∧ idx.toNat < data.length then some (data.get ⟨idx.toNat, h.2⟩)
  else none

/-- `getBrightnessAtPoint` from `App.svelte`: returns 0 when no image is
loaded; otherwise reads the three color channels at
`index = (y * width + x) * 4` — with NO clamping of `x`/`y` — and returns
`(r + g + b) / (3 * 255)`.  An out-of-bounds read yields `undefined`, which
poisons the sum to `NaN` (modelled as `none`). -/
def getBrightnessAtPoint (imageData : Option Frame) (x y : ℤ) : Option ℚ :=
  match imageData with
  | none => some 0
  | some f =>
    let index : ℤ := (y * f.width + x) * 4
    match readChannel f.data index, readChannel f.data (index + 1),
        readChannel f.data (index + 2) with
    | some r, some g, some b => some (((r : ℚ) + g + b) / (3 * 255))
    | _, _, _ => none

/-- The coordinate clamp used by `getContrastAroundPoint` in `App.svelte`:
`Math.max(0, Math.min(bound, c))` with `bound = width - 1` or `height - 1`. -/
def clampCoord (bound c : ℤ) : ℤ :=
  max 0 (min bound c)

/-- The per-voice color average of `updateAudio` in `AudioVisualizer.svelte`:
channels `r`, `g`, `b` are each normalized by 255 and averaged
(`colorValue = (r + g + b) / 3`); the alpha channel is read but unused.
Out-of-bounds reads poison the result (`none`). -/
def colorValueAt (f : Frame) (x y : ℤ) : Option ℚ :=
  let index : ℤ := (y * f.width + x) * 4
  match readChannel f.data index, readChannel f.data (index + 1),
      readChannel f.data (index + 2) with
  | some r, some g, some b => some (((r : ℚ) / 255 + (g : ℚ) / 255 + (b : ℚ) / 255) / 3)
  | _, _, _ => none

/-- `noteIndex` in `App.svelte`'s `scan`:
`Math.floor(brightness * (scales[scale].length - 1))`. -/
def noteIndex (brightness : ℚ) (table : List ℤ) : ℤ :=
  Int.floor (brightness * ((table.length : ℚ) - 1))

/-- The JavaScript expression `table[i] || 0`: the stored entry when `i` is in
bounds and the entry is nonzero; `0` when the entry is `0` (falsy) or the
index is out of bounds (`undefined`).  For integer tables this is exactly
"entry if in bounds, else 0". -/
def jsOrZero (table : List ℤ) (i : ℤ) : ℤ :=
  if 0 ≤ i ∧ i < (table.length : ℤ) then table.getD i.toNat 0 else 0

/-- `scaleStep` in `App.svelte`'s `scan`: `scales[scale][noteIndex] || 0`. -/
def scaleStepOf (brightness : ℚ) (table : List ℤ) : ℤ :=
  jsOrZero table (noteIndex brightness table)

/-- The scale-quantized frequency of `App.svelte`'s `scan`:
`frequency = baseFreq * Math.pow(2, scaleStep / 12)`, where `baseFreq` is
`Tone.Frequency(baseNote + octave).toFrequency()` (external, abstracted as a
real parameter). -/
noncomputable def scanFrequency (baseFreq : ℝ) (brightness : ℚ) (table : List ℤ) : ℝ :=
  baseFreq * (2 : ℝ) ^ ((scaleStepOf brightness table : ℝ) / 12)

/-- The continuous-exponential frequency of `AudioVisualizer.svelte`'s
`updateAudio`:
`frequency = noteFrequencies[baseNote] * Math.pow(2, octave - 4 + colorValue)`. -/
noncomputable def visFrequency (baseNote : PitchClass) (octave : ℤ) (colorValue : ℚ) : ℝ :=
  (noteFrequencies baseNote : ℝ) * (2 : ℝ) ^ ((octave : ℝ) - 4 + (colorValue : ℝ))

/-- The per-voice sample ordinate of `updateAudio` in `AudioVisualizer.svelte`:
`y = Math.floor(sourceHeight / voiceCount * (i + 0.5))`. -/
def sampleY (sourceHeight voiceCount : ℕ) (i : ℕ) : ℤ :=
  Int.floor ((sourceHeight : ℚ) / (voiceCount : ℚ) * ((i : ℚ) + 1/2))

/-- The per-voice loop body of `updateAudio` in `AudioVisualizer.svelte`, for
voices `i = 0 .. voiceCount - 1`: sample coordinates
`x = Math.floor(cursorPosition)`, `y = sampleY`, and the ramp target frequency
computed from the pixel's color average (undefined when the pixel read is out
of bounds). -/
noncomputable def voiceParams (c : VisControls) (f : Frame) (cursorPosition : ℚ) :
    List (ℤ × ℤ × Option ℝ) :=
  (List.range c.voiceCount).map fun i =>
    let x : ℤ := Int.floor cursorPosition
    let y : ℤ := sampleY f.height c.voiceCount i
    (x, y, (colorValueAt f x y).map fun cv => visFrequency c.baseNote c.octave cv)

/-- `updateSamplePoints` from `App.svelte`: the `numberOfNotes` sample
ordinates `Math.floor(i * (height - 1) / (numberOfNotes - 1))`.
(The JavaScript only runs this when `canvas.height` is nonzero; for
`numberOfNotes = 1` the JavaScript division is `0 / 0 = NaN`, so the model is
faithful for `numberOfNotes ≥ 2`, the range the UI allows.) -/
def updateSamplePoints (height numberOfNotes : ℕ) : List ℕ :=
  (List.range numberOfNotes).map fun i => i * (height - 1) / (numberOfNotes - 1)

/-- The wrap-boundary cursor advance of `updateAudio` in
`AudioVisualizer.svelte`:
`cursorPosition += cursorSpeed; if (cursorPosition >= sourceWidth) cursorPosition = 0`. -/
def wrapStep (speed width pos : ℚ) : ℚ :=
  let p := pos + speed
  if width ≤ p then 0 else p

/-- Cursor position after `n` wrap-policy ticks starting from 0. -/
def wrapIter (speed width : ℚ) : ℕ → ℚ
  | 0 => 0
  | n + 1 => wrapStep speed width (wrapIter speed width n)

/-- The bounce-boundary cursor advance of `scan` in `App.svelte`:
`cursorPosition += direction * cursorSpeed;
 if (cursorPosition >= canvas.width || cursorPosition < 0) {
   direction *= -1; cursorPosition += direction * cursorSpeed; }`.
Returns the new `(cursorPosition, direction)`. -/
def scanMoveCursor (width speed : ℚ) (pos dir : ℚ) : ℚ × ℚ :=
  let p := pos + dir * speed
  if width ≤ p ∨ p < 0 then (p + (-dir) * speed, -dir) else (p, dir)

/-- Reflecting an upper-bound overshoot back into range: a position `p` that
overshot the bound `width` by `p - width` lands at `width - (p - width)`. -/
def reflectHigh (width p : ℚ) : ℚ :=
  width - (p - width)

/-- The shrink loop of `updateVoiceCount` in `AudioVisualizer.svelte`:
`while (synths.length > value) { synths.pop().dispose(); }`. -/
def shrinkSynths (value : ℕ) (synths : List Synth) : List Synth :=
  if _h : value < synths.length then shrinkSynths value synths.dropLast else synths
termination_by synths.length
decreasing_by simp [List.length_dropLast]; omega

/-- The grow loop of `updateVoiceCount` in `AudioVisualizer.svelte`:
`while (synths.length < value)` push a new synth whose volume is
`controls.volume` and whose oscillator type is `controls.oscillatorType`
(and, if playing, trigger its attack — not observed by the pool state). -/
def growSynths (vol : ℚ) (osc : Waveform) (value : ℕ) (synths : List Synth) : List Synth :=
  if _h : synths.length < value then
    growSynths vol osc value (synths ++ [⟨vol, osc⟩])
  else synths
termination_by value - synths.length
decreasing_by simp [List.length_append]; omega

/-- `updateVoiceCount` from `AudioVisualizer.svelte` (the live version at
lines 128–143): shrink by popping and disposing, then grow by pushing voices
initialized from the current shared `controls.volume` and
`controls.oscillatorType`. -/
def updateVoiceCount (vol : ℚ) (osc : Waveform) (value : ℕ) (synths : List Synth) :
    List Synth :=
  growSynths vol osc value (shrinkSynths value synths)

/-- `minTimeBetweenNotes` from `App.svelte`: 0.1 seconds. -/
def minTimeBetweenNotes : ℚ := 0.1

/-- The rate-limit decision at the top of `scan` in `App.svelte`: the trigger
block runs iff `currentTime - lastPlayTime >= minTimeBetweenNotes`, and then
`lastPlayTime = currentTime`.  Returns `(fired, new lastPlayTime)`. -/
def scanOnset (currentTime lastPlayTime : ℚ) : Bool × ℚ :=
  if minTimeBetweenNotes ≤ currentTime - lastPlayTime then (true, currentTime)
  else (false, lastPlayTime)

/-- Folding `scanOnset` over a list of tick times, recording which ticks
fired an onset. -/
def onsetFold (lastPlayTime : ℚ) : List ℚ → List Bool
  | [] => []
  | t :: ts =>
    let r := scanOnset t lastPlayTime
    r.1 :: onsetFold r.2 ts

/-- The frame-acquisition head of `updateAudio` in `AudioVisualizer.svelte`:
for `image` input it requires `imageData` (else `return`); for the three
video-based inputs it requires a video element with nonzero `videoWidth`
(else `return`).  Yields the `(sourceWidth, sourceHeight)` it samples from. -/
def sourceDims (inputType : InputType) (imageData video : Option Frame) :
    Option (ℕ × ℕ) :=
  match inputType with
  | .image =>
    match imageData with
    | none => none
    | some f => some (f.width, f.height)
  | .video | .webcam | .screen =>
    match video with
    | none => none
    | some v => if v.width = 0 then none else some (v.width, v.height)

/-- One `updateAudio` tick of `AudioVisualizer.svelte`, abstracted to its
scheduling and cursor effect: `none` means the tick hit an early `return`
before the trailing `requestAnimationFrame(updateAudio)`, so no further tick
is scheduled; `some pos` means the tick ran to completion (rescheduling
itself) and left the cursor at `pos` (the wrap-policy advance). -/
def updateAudioTick (inputType : InputType) (imageData video : Option Frame)
    (speed pos : ℚ) : Option ℚ :=
  match sourceDims inputType imageData video with
  | none => none
  | some (w, _) => some (wrapStep speed (w : ℚ) pos)

/-- "A frame is available", in the spec's words: image data is loaded (image
mode), or the video element exists and has a nonzero width (video modes). -/
def frameAvailable (inputType : InputType) (imageData video : Option Frame) : Bool :=
  match inputType with
  | .image => imageData.isSome
  | .video | .webcam | .screen =>
    match video with
    | none => false
    | some v => decide (v.width ≠ 0)

/-- A concrete 2×2 frame whose 16 bytes are all 100, used as a counterexample
input. -/
def testFrame : Frame :=
  ⟨2, 2, List.replicate 16 100⟩

theorem noteFrequencies_pos (b : PitchClass) : (0 : ℚ) < noteFrequencies b := by
  cases b <;> norm_num [noteFrequencies]

theorem shrinkSynths_eq_take (value : ℕ) (synths : List Synth) :
    shrinkSynths value synths = synths.take value := by
  induction synths using shrinkSynths.induct value with
  | case1 synths h ih =>
    rw [shrinkSynths, dif_pos h, ih, List.dropLast_eq_take, List.take_take]
    congr 1
    omega
  | case2 synths h =>
    rw [shrinkSynths, dif_neg h, List.take_of_length_le (by omega)]

theorem growSynths_eq_append (vol : ℚ) (osc : Waveform) (value : ℕ) (synths : List Synth) :
    growSynths vol osc value synths =
      synths ++ List.replicate (value - synths.length) ⟨vol, osc⟩ := by
  induction synths using growSynths.induct vol osc value with
  | case1 synths h ih =>
    rw [growSynths, dif_pos h, ih, List.append_assoc]
    congr 1
    have hlen : (synths ++ [(⟨vol, osc⟩ : Synth)]).length = synths.length + 1 := by simp
    rw [hlen]
    have : value - synths.length = (value - (synths.length + 1)) + 1 := by omega
    rw [this, List.replicate_succ]
    rfl
  | case2 synths h =>
    rw [growSynths, dif_neg h]
    have : value - synths.length = 0 := by omega
    simp [this]

/-- Claim C3: after `updateVoiceCount(v2)`, the pool holds exactly `v2` live
voices and, provided the existing voices already carried the pool's shared
volume and waveform (which every setter in the source maintains), all of them
— the survivors and the newly grown ones — carry the current shared volume
and waveform; new voices are initialized from `controls`, not from synth
defaults. -/
theorem C3_resize (vol : ℚ) (osc : Waveform) (v2 : ℕ) (synths : List Synth)
    (hall : ∀ t ∈ synths, t.volume = vol ∧ t.oscType = osc) :
    (updateVoiceCount vol osc v2 synths).length = v2 ∧
    ∀ t ∈ updateVoiceCount vol osc v2 synths, t.volume = vol ∧ t.oscType = osc := by
  unfold updateVoiceCount
  rw [growSynths_eq_append, shrinkSynths_eq_take]
  constructor
  · simp only [List.length_append, List.length_take, List.length_replicate]
    omega
  · intro t ht
    rcases List.mem_append.mp ht with h | h
    · exact hall t (List.mem_of_mem_take h)
    · have := List.eq_of_mem_replicate h
      subst this
      exact ⟨rfl, rfl⟩

/-- Claim C3 witness: growing a consistent 2-voice pool (volume −10 dB, sine)
to 4 voices yields 4 voices all at volume −10 dB with sine oscillators. -/
theorem C3_witness :
    (updateVoiceCount (-10) .sine 4 [⟨-10, .sine⟩, ⟨-10, .sine⟩]).length = 4 ∧
    ∀ t ∈ updateVoiceCount (-10) .sine 4 [⟨-10, .sine⟩, ⟨-10, .sine⟩],
      t.volume = -10 ∧ t.oscType = .sine :=
  C3_resize (-10) .sine 4 [⟨-10, .sine⟩, ⟨-10, .sine⟩] (by decide)

/-- Claim C9: an onset fires on a `scan` tick iff the current time is at
least 0.1 s past the last onset time; in the three-crossing scenario (second
crossing 0.05 s after the first, third 0.12 s after the first) exactly the
first and third fire. -/
theorem C9_onset_rate_limit :
    (∀ t last : ℚ, ((scanOnset t last).1 = true ↔ (1 / 10 : ℚ) ≤ t - last)) ∧
    (∀ t0 last0 : ℚ, (1 / 10 : ℚ) ≤ t0 - last0 →
      onsetFold last0 [t0, t0 + 0.05, t0 + 0.12] = [true, false, true]) := by
  constructor
  · intro t last
    unfold scanOnset minTimeBetweenNotes
    split
    case isTrue h => simpa using by linarith [h]
    case isFalse h =>
      simp only [Bool.false_eq_true, false_iff]
      intro hc
      exact h (by linarith [hc])
  · intro t0 last0 h
    have h1 : scanOnset t0 last0 = (true, t0) := by
      unfold scanOnset
      rw [if_pos (by unfold minTimeBetweenNotes; linarith [h])]
    have h2 : scanOnset (t0 + 0.05) t0 = (false, t0) := by
      unfold scanOnset
      rw [if_neg (by unfold minTimeBetweenNotes; intro hc; norm_num at hc)]
    have h3 : scanOnset (t0 + 0.12) t0 = (true, t0 + 0.12) := by
      unfold scanOnset
      rw [if_pos (by unfold minTimeBetweenNotes; norm_num)]
    simp [onsetFold, h1, h2, h3]

/-- Claim C9 witness: with the last onset at time 0, crossings at 1, 1.05 and
1.12 seconds fire, skip, fire. -/
theorem C9_witness :
    (scanOnset 1 0).1 = true ∧
    onsetFold 0 [1, 1 + 0.05, 1 + 0.12] = [true, false, true] :=
  ⟨(C9_onset_rate_limit.1 1 0).mpr (by norm_num),
    C9_onset_rate_limit.2 1 0 (by norm_num)⟩

/-- Claim C1 counterexample: in image mode with no image data loaded the
frame is not available, and the `updateAudio` tick returns without calling
`requestAnimationFrame` (result `none`), so no subsequent tick is scheduled
— refuting "for every such not-ready tick, a subsequent tick is always
scheduled". -/
theorem C1_counterexample :
    frameAvailable InputType.image none none = false ∧
    updateAudioTick InputType.image none none 1 0 = none :=
  ⟨rfl, rfl⟩

/-- Claim C1 (amended): a tick of `updateAudio` reschedules itself if and
only if a frame is available; a not-ready tick performs no sampling but also
does not reschedule, so the loop silently halts until audio is restarted. -/
theorem C1_amended (inputType : InputType) (imageData video : Option Frame)
    (speed pos : ℚ) :
    (updateAudioTick inputType imageData video speed pos).isSome =
      frameAvailable inputType imageData video := by
  cases inputType <;> cases imageData <;> cases video <;> try rfl
  all_goals
    rename_i v
  all_goals
    by_cases hv : v.width = 0 <;>
      simp [updateAudioTick, sourceDims, frameAvailable, hv]

/-- Claim C5 counterexample: bounce step at position 9, direction 1, speed 3
on axis length 10: the step to 12 exceeds the bound, the direction flips and
the cursor returns to 9 — it is not reflected to 8, the overshoot-reflected
position. -/
theorem C5_counterexample :
    scanMoveCursor 10 3 9 1 = (9, -1) ∧
    reflectHigh 10 (9 + 1 * 3) = 8 ∧
    (scanMoveCursor 10 3 9 1).1 ≠ reflectHigh 10 (9 + 1 * 3) := by
  refine ⟨?_, ?_, ?_⟩ <;> norm_num [scanMoveCursor, reflectHigh]

/-- Claim C5 (amended): starting in range, the bounce cursor stays within
`[0, L)` on every tick and the direction is inverted exactly when the step
would exceed either bound; but the overshoot is not reflected — on a flip the
second `+= direction * cursorSpeed` exactly undoes the step, leaving the
cursor at its pre-step position. -/
theorem C5_amended (L s pos dir : ℚ) (hdir : dir = 1 ∨ dir = -1)
    (h0 : 0 ≤ pos) (hL : pos < L) :
    (0 ≤ (scanMoveCursor L s pos dir).1 ∧ (scanMoveCursor L s pos dir).1 < L) ∧
    ((scanMoveCursor L s pos dir).2 = -dir ↔ (L ≤ pos + dir * s ∨ pos + dir * s < 0)) ∧
    ((L ≤ pos + dir * s ∨ pos + dir * s < 0) → (scanMoveCursor L s pos dir).1 = pos) := by
  have hdne : dir ≠ -dir := by
    rcases hdir with h | h <;> rw [h] <;> norm_num
  by_cases h : L ≤ pos + dir * s ∨ pos + dir * s < 0
  · have hstep : scanMoveCursor L s pos dir = (pos, -dir) := by
      simp only [scanMoveCursor]
      rw [if_pos h]
      have hp : pos + dir * s + -dir * s = pos := by ring
      rw [hp]
    rw [hstep]
    exact ⟨⟨h0, hL⟩, iff_of_true rfl h, fun _ => rfl⟩
  · have hstep : scanMoveCursor L s pos dir = (pos + dir * s, dir) := by
      simp only [scanMoveCursor]
      rw [if_neg h]
    rw [hstep]
    have h' := h
    push_neg at h'
    exact ⟨⟨h'.2, h'.1⟩, iff_of_false hdne h, fun hc => absurd hc h⟩

/-- Claim C5 witness: position 9, direction 1, speed 3, length 10 — the
result stays in `[0, 10)`, the direction flips, and the position is the
pre-step 9. -/
theorem C5_witness :
    (0 ≤ (scanMoveCursor 10 3 9 1).1 ∧ (scanMoveCursor 10 3 9 1).1 < 10) ∧
    ((scanMoveCursor 10 3 9 1).2 = -1 ↔ ((10:ℚ) ≤ 9 + 1 * 3 ∨ (9:ℚ) + 1 * 3 < 0)) ∧
    (((10:ℚ) ≤ 9 + 1 * 3 ∨ (9:ℚ) + 1 * 3 < 0) → (scanMoveCursor 10 3 9 1).1 = 9) :=
  C5_amended 10 3 9 1 (Or.inl rfl) (by norm_num) (by norm_num)

/-- Claim C2 counterexample: wrap policy with speed 3 on axis length 10:
after 4 ticks the cursor is at 0 (the wrap resets to 0, discarding the
remainder), while `(3 * 4) mod 10 = 2`. -/
theorem C2_counterexample :
    wrapIter 3 10 4 = 0 ∧ ((3 * 4 : ℤ) % 10 = 2) ∧
    wrapIter 3 10 4 ≠ (((3 * 4 : ℤ) % 10 : ℤ) : ℚ) := by
  refine ⟨?_, by norm_num, ?_⟩ <;> norm_num [wrapIter, wrapStep]

/-- Claim C2 (amended): the wrap branch resets the cursor to 0 (discarding
the remainder of the step) rather than reducing modulo the width, and it
touches only the position (there is no direction state in this variant), so
the position after `N` ticks from 0 equals `(s * N) mod L` exactly when the
speed `s` divides the axis length `L`. -/
theorem C2_amended (s L N : ℕ) (hs : 0 < s) (hL : 0 < L) (hdvd : s ∣ L) :
    wrapIter (s : ℚ) (L : ℚ) N = ((s * N % L : ℕ) : ℚ) := by
  obtain ⟨k, hk⟩ := hdvd
  have hk0 : 0 < k := by
    rcases Nat.eq_zero_or_pos k with h | h
    · subst h
      omega
    · exact h
  induction N with
  | zero => simp [wrapIter]
  | succ n ih =>
    simp only [wrapIter]
    rw [ih]
    have hr : s * n % L = s * (n % k) := by
      rw [hk, Nat.mul_mod_mul_left]
    have hmlt : n % k < k := Nat.mod_lt n hk0
    by_cases hc : L ≤ s * n % L + s
    · have hcond : (L : ℚ) ≤ ((s * n % L : ℕ) : ℚ) + (s : ℚ) := by exact_mod_cast hc
      simp only [wrapStep]
      rw [if_pos hcond]
      have hge : k ≤ n % k + 1 := by
        have h1 : s * k ≤ s * (n % k + 1) := by
          calc s * k = L := hk.symm
            _ ≤ s * n % L + s := hc
            _ = s * (n % k) + s := by rw [hr]
            _ = s * (n % k + 1) := by ring
        exact Nat.le_of_mul_le_mul_left h1 hs
      have heq : n % k = k - 1 := by omega
      have hmod : (n + 1) % k = 0 := by
        by_cases hk1 : k = 1
        · subst hk1
          simp [Nat.mod_one]
        · have hk2 : 1 < k := by omega
          rw [Nat.add_mod, heq, Nat.mod_eq_of_lt hk2]
          have hline : k - 1 + 1 = k := by omega
          rw [hline, Nat.mod_self]
      have : s * (n + 1) % L = 0 := by
        rw [hk, Nat.mul_mod_mul_left, hmod, Nat.mul_zero]
      rw [this]
      norm_num
    · have hcond : ¬ ((L : ℚ) ≤ ((s * n % L : ℕ) : ℚ) + (s : ℚ)) := by
        intro hq
        exact hc (by exact_mod_cast hq)
      simp only [wrapStep]
      rw [if_neg hcond]
      have hlt : n % k + 1 < k := by
        have h1 : s * (n % k + 1) < s * k := by
          calc s * (n % k + 1) = s * (n % k) + s := by ring
            _ = s * n % L + s := by rw [hr]
            _ < L := by omega
            _ = s * k := hk
        exact Nat.lt_of_mul_lt_mul_left h1
      have hmod : (n + 1) % k = n % k + 1 := by
        have hk2 : 1 < k := by omega
        rw [Nat.add_mod, Nat.mod_eq_of_lt hk2, Nat.mod_eq_of_lt (by omega : n % k + 1 < k)]
      have : s * (n + 1) % L = s * n % L + s := by
        rw [hr, hk, Nat.mul_mod_mul_left, hmod]
        ring
      rw [this]
      push_cast
      ring

/-- Claim C2 witness: speed 2 divides length 10; after 7 ticks the cursor is
at `2 * 7 mod 10 = 4`. -/
theorem C2_witness : wrapIter (2 : ℚ) (10 : ℚ) 7 = ((2 * 7 % 10 : ℕ) : ℚ) :=
  C2_amended 2 10 7 (by norm_num) (by norm_num) ⟨5, rfl⟩

/-- Claim C4 counterexample: with 4 voices on an axis of length 2 the App
sample points are `[0, 0, 0, 1]` — within range but not strictly
increasing, refuting "strictly increasing ... for every v ≥ 1 and L > 0". -/
theorem C4_counterexample :
    updateSamplePoints 2 4 = [0, 0, 0, 1] ∧
    ¬ (updateSamplePoints 2 4).Pairwise (· < ·) := by
  decide

/-- Claim C4 (amended): for `v ≥ 2` voices (the UI minimum; at `v = 1` the
App formula divides by zero) the coordinates equal
`floor(i * (L-1) / (v-1))` and lie within `[0, L-1]`, and they are strictly
increasing provided `v ≤ L`; in the `AudioVisualizer` variant the single
`v = 1` coordinate is the axis midpoint `floor(L / 2)`. -/
theorem C4_amended (L v : ℕ) (hv : 2 ≤ v) (hvL : v ≤ L) :
    (updateSamplePoints L v).length = v ∧
    (updateSamplePoints L v).Pairwise (· < ·) ∧
    (∀ y ∈ updateSamplePoints L v, y ≤ L - 1) ∧
    (∀ i, i < v → (updateSamplePoints L v).getD i 0 = i * (L - 1) / (v - 1)) ∧
    (∀ H : ℕ, 0 < H → sampleY H 1 0 = (H : ℤ) / 2) := by
  have hv1 : 0 < v - 1 := by omega
  refine ⟨by simp [updateSamplePoints], ?_, ?_, ?_, ?_⟩
  · have hkey : ∀ a b : ℕ, a < b →
        a * (L - 1) / (v - 1) < b * (L - 1) / (v - 1) := by
      intro a b hab
      have h2 : (a + 1) * (L - 1) ≤ b * (L - 1) :=
        Nat.mul_le_mul (by omega) (le_refl _)
      have h1 : a * (L - 1) + (v - 1) ≤ b * (L - 1) := by
        have h3 : v - 1 ≤ L - 1 := by omega
        calc a * (L - 1) + (v - 1) ≤ a * (L - 1) + (L - 1) := by omega
          _ = (a + 1) * (L - 1) := by ring
          _ ≤ b * (L - 1) := h2
      calc a * (L - 1) / (v - 1) < a * (L - 1) / (v - 1) + 1 := Nat.lt_succ_self _
        _ = (a * (L - 1) + (v - 1)) / (v - 1) := (Nat.add_div_right _ hv1).symm
        _ ≤ b * (L - 1) / (v - 1) := Nat.div_le_div_right h1
    unfold updateSamplePoints
    rw [List.pairwise_map]
    exact (List.pairwise_lt_range v).imp fun hab => hkey _ _ hab
  · intro y hy
    simp only [updateSamplePoints, List.mem_map, List.mem_range] at hy
    obtain ⟨i, hi, rfl⟩ := hy
    have hle : i * (L - 1) ≤ (v - 1) * (L - 1) := Nat.mul_le_mul (by omega) (le_refl _)
    calc i * (L - 1) / (v - 1) ≤ (v - 1) * (L - 1) / (v - 1) := Nat.div_le_div_right hle
      _ = L - 1 := Nat.mul_div_cancel_left _ hv1
  · intro i hi
    rw [List.getD_eq_getElem _ _ (by simpa [updateSamplePoints] using hi)]
    simp [updateSamplePoints]
  · intro H hH
    unfold sampleY
    have harg : ((H : ℚ)) / ((1 : ℕ) : ℚ) * (((0 : ℕ) : ℚ) + 1/2) =
        ((H : ℤ) : ℚ) / ((2 : ℕ) : ℚ) := by
      push_cast
      ring
    rw [harg, Rat.floor_intCast_div_natCast]
    norm_num

/-- Claim C4 witness: the spec scenario — axis length 50, 4 voices — gives
4 strictly increasing in-range coordinates `floor(i * 49 / 3)`, and a single
voice on the same axis samples the midpoint. -/
theorem C4_witness :
    (updateSamplePoints 50 4).length = 4 ∧
    (updateSamplePoints 50 4).Pairwise (· < ·) ∧
    (∀ y ∈ updateSamplePoints 50 4, y ≤ 50 - 1) ∧
    (∀ i, i < 4 → (updateSamplePoints 50 4).getD i 0 = i * (50 - 1) / (4 - 1)) ∧
    (∀ H : ℕ, 0 < H → sampleY H 1 0 = (H : ℤ) / 2) :=
  C4_amended 50 4 (by norm_num) (by norm_num)

theorem table_sub_one_nonneg (table : List ℤ) (hne : table ≠ []) :
    (0 : ℚ) ≤ (table.length : ℚ) - 1 := by
  have h1 : 0 < table.length := List.length_pos.mpr hne
  have h2 : (1 : ℚ) ≤ (table.length : ℚ) := by exact_mod_cast h1
  linarith

theorem noteIndex_nonneg (nv : ℚ) (table : List ℤ) (h0 : 0 ≤ nv) (hne : table ≠ []) :
    0 ≤ noteIndex nv table := by
  unfold noteIndex
  rw [Int.le_floor]
  push_cast
  exact mul_nonneg h0 (table_sub_one_nonneg table hne)

theorem noteIndex_le_sub_one (nv : ℚ) (table : List ℤ) (h1 : nv ≤ 1) (hne : table ≠ []) :
    noteIndex nv table ≤ (table.length : ℤ) - 1 := by
  unfold noteIndex
  have hle : nv * ((table.length : ℚ) - 1) ≤ (table.length : ℚ) - 1 :=
    mul_le_of_le_one_left (table_sub_one_nonneg table hne) h1
  calc Int.floor (nv * ((table.length : ℚ) - 1))
      ≤ Int.floor ((table.length : ℚ) - 1) := Int.floor_le_floor hle
    _ = (table.length : ℤ) - 1 := by
        rw [show ((table.length : ℚ) - 1) = ((((table.length : ℤ) - 1) : ℤ) : ℚ) by
          push_cast; ring]
        exact Int.floor_intCast _

theorem noteIndex_toNat_lt (nv : ℚ) (table : List ℤ) (h0 : 0 ≤ nv) (h1 : nv ≤ 1)
    (hne : table ≠ []) : (noteIndex nv table).toNat < table.length := by
  have ha := noteIndex_nonneg nv table h0 hne
  have hb := noteIndex_le_sub_one nv table h1 hne
  have hlen : 0 < table.length := List.length_pos.mpr hne
  omega

theorem scaleStepOf_eq_getD (nv : ℚ) (table : List ℤ) (h0 : 0 ≤ nv) (h1 : nv ≤ 1)
    (hne : table ≠ []) :
    scaleStepOf nv table = table.getD (noteIndex nv table).toNat 0 := by
  have ha := noteIndex_nonneg nv table h0 hne
  have hb := noteIndex_le_sub_one nv table h1 hne
  have hlen : 0 < table.length := List.length_pos.mpr hne
  unfold scaleStepOf jsOrZero
  rw [if_pos ⟨ha, by omega⟩]

theorem sorted_getD_mono (table : List ℤ) (hs : table.Pairwise (· ≤ ·)) (i j : ℕ)
    (hij : i ≤ j) (hj : j < table.length) :
    table.getD i 0 ≤ table.getD j 0 := by
  have hi : i < table.length := lt_of_le_of_lt hij hj
  rw [List.getD_eq_getElem _ _ hi, List.getD_eq_getElem _ _ hj]
  rcases eq_or_lt_of_le hij with rfl | hlt
  · exact le_refl _
  · have := (List.pairwise_iff_get.mp hs) ⟨i, hi⟩ ⟨j, hj⟩ hlt
    simpa [List.get_eq_getElem] using this

/-- Claim C6: in scale-quantized mode, for any normalized value in `[0, 1]`
and nonempty scale table the index `floor(nv * (len - 1))` is in range (in
particular at `nv = 0` and `nv = 1`), and the produced frequency is
`baseFreq * 2 ^ (scaleTable[index] / 12)`. -/
theorem C6_scale_quantized (baseFreq : ℝ) (nv : ℚ) (table : List ℤ)
    (h0 : 0 ≤ nv) (h1 : nv ≤ 1) (hne : table ≠ []) :
    ∃ h : (noteIndex nv table).toNat < table.length,
      0 ≤ noteIndex nv table ∧
      scanFrequency baseFreq nv table =
        baseFreq *
          (2 : ℝ) ^ (((table.get ⟨(noteIndex nv table).toNat, h⟩ : ℤ) : ℝ) / 12) := by
  have hlt := noteIndex_toNat_lt nv table h0 h1 hne
  refine ⟨hlt, noteIndex_nonneg nv table h0 hne, ?_⟩
  unfold scanFrequency
  rw [scaleStepOf_eq_getD nv table h0 h1 hne, List.getD_eq_getElem _ _ hlt,
    List.get_eq_getElem]

/-- Claim C6 witness: G base frequency 392 Hz, normalized value exactly 1,
major scale — the index 7 is in range and the frequency is
`392 * 2 ^ (scaleTable[7] / 12)`. -/
theorem C6_witness :
    ∃ h : (noteIndex 1 (scales .major)).toNat < (scales .major).length,
      0 ≤ noteIndex 1 (scales .major) ∧
      scanFrequency 392 1 (scales .major) =
        392 *
          (2 : ℝ) ^
            ((((scales .major).get ⟨(noteIndex 1 (scales .major)).toNat, h⟩ : ℤ) : ℝ) / 12) :=
  C6_scale_quantized 392 1 (scales .major) (by norm_num) (by norm_num) (by decide)

/-- Claim C7: for fixed base note, octave and scale table, both pitch
mappings are monotone non-decreasing in the normalized value over `[0, 1]`:
the continuous-exponential variant of `AudioVisualizer.svelte` and the
scale-quantized variant of `App.svelte` (for any sorted scale table, which
includes the four shipped ones). -/
theorem C7_monotone (b : PitchClass) (oct : ℤ) (baseFreq : ℝ) (table : List ℤ)
    (nv1 nv2 : ℚ) (hbf : 0 ≤ baseFreq) (hsorted : table.Pairwise (· ≤ ·))
    (h0 : 0 ≤ nv1) (h12 : nv1 ≤ nv2) (h2 : nv2 ≤ 1) :
    visFrequency b oct nv1 ≤ visFrequency b oct nv2 ∧
    scanFrequency baseFreq nv1 table ≤ scanFrequency baseFreq nv2 table := by
  have h1lt2 : (1 : ℝ) < 2 := by norm_num
  constructor
  · unfold visFrequency
    have hnf : (0 : ℝ) ≤ (noteFrequencies b : ℝ) := by
      have := noteFrequencies_pos b
      exact le_of_lt (by exact_mod_cast this)
    refine mul_le_mul_of_nonneg_left ?_ hnf
    refine (Real.rpow_le_rpow_left_iff h1lt2).mpr ?_
    have hc : (nv1 : ℝ) ≤ (nv2 : ℝ) := by exact_mod_cast h12
    linarith
  · rcases eq_or_ne table [] with rfl | hne
    · have hcond : ∀ nv : ℚ, ¬ (0 ≤ noteIndex nv ([] : List ℤ) ∧
          noteIndex nv ([] : List ℤ) < ((([] : List ℤ).length : ℤ))) := by
        intro nv h
        simp only [List.length_nil, Nat.cast_zero] at h
        omega
      unfold scanFrequency scaleStepOf jsOrZero
      rw [if_neg (hcond nv1), if_neg (hcond nv2)]
    · have h0' : 0 ≤ nv2 := le_trans h0 h12
      have h1' : nv1 ≤ 1 := le_trans h12 h2
      have hlt1 := noteIndex_toNat_lt nv1 table h0 h1' hne
      have hlt2 := noteIndex_toNat_lt nv2 table h0' h2 hne
      have hidx : noteIndex nv1 table ≤ noteIndex nv2 table := by
        unfold noteIndex
        exact Int.floor_le_floor
          (mul_le_mul_of_nonneg_right h12 (table_sub_one_nonneg table hne))
      have hij : (noteIndex nv1 table).toNat ≤ (noteIndex nv2 table).toNat :=
        Int.toNat_le_toNat hidx
      have hstep := sorted_getD_mono table hsorted _ _ hij hlt2
      unfold scanFrequency
      rw [scaleStepOf_eq_getD nv1 table h0 h1' hne, scaleStepOf_eq_getD nv2 table h0' h2 hne]
      refine mul_le_mul_of_nonneg_left ?_ hbf
      refine (Real.rpow_le_rpow_left_iff h1lt2).mpr ?_
      have hc : ((table.getD (noteIndex nv1 table).toNat 0 : ℤ) : ℝ) ≤
          ((table.getD (noteIndex nv2 table).toNat 0 : ℤ) : ℝ) := by exact_mod_cast hstep
      linarith

/-- Claim C7 witness: base note C, octave 4, base frequency 392 Hz, major
scale — the frequency at normalized value 0 is at most the frequency at 1,
in both variants. -/
theorem C7_witness :
    visFrequency .C 4 0 ≤ visFrequency .C 4 1 ∧
    scanFrequency 392 0 (scales .major) ≤ scanFrequency 392 1 (scales .major) :=
  C7_monotone .C 4 392 (scales .major) 0 1 (by norm_num) (by decide) (by norm_num)
    (by norm_num) (by norm_num)

/-- Claim C8 counterexample: on a 2×2 frame, the loop's pixel lookup at
x = 5 (outside `[0, width-1]`) is an undefined read (`none`), not the
defined in-range value obtained at the clamped coordinates — the lookup does
not clamp its coordinates. -/
theorem C8_counterexample :
    getBrightnessAtPoint (some testFrame) 5 0 = none ∧
    getBrightnessAtPoint (some testFrame) (clampCoord ((testFrame.width : ℤ) - 1) 5)
        (clampCoord ((testFrame.height : ℤ) - 1) 0) = some (20 / 51) ∧
    getBrightnessAtPoint (some testFrame) 5 0 ≠
      getBrightnessAtPoint (some testFrame) (clampCoord ((testFrame.width : ℤ) - 1) 5)
        (clampCoord ((testFrame.height : ℤ) - 1) 0) := by
  have hcx : clampCoord ((testFrame.width : ℤ) - 1) 5 = 1 := by decide
  have hcy : clampCoord ((testFrame.height : ℤ) - 1) 0 = 0 := by decide
  have e0 : readChannel testFrame.data ((0 * (testFrame.width : ℤ) + 1) * 4) = some 100 := by
    decide
  have e1 : readChannel testFrame.data ((0 * (testFrame.width : ℤ) + 1) * 4 + 1) = some 100 := by
    decide
  have e2 : readChannel testFrame.data ((0 * (testFrame.width : ℤ) + 1) * 4 + 2) = some 100 := by
    decide
  have h2 : getBrightnessAtPoint (some testFrame) 1 0 = some (20 / 51) := by
    simp only [getBrightnessAtPoint]
    rw [e0, e1, e2]
    norm_num
  have h1 : getBrightnessAtPoint (some testFrame) 5 0 = none := by decide
  refine ⟨h1, ?_, ?_⟩
  · rw [hcx, hcy]
    exact h2
  · rw [hcx, hcy, h1, h2]
    simp

/-- Claim C8 (amended): the loop's pixel lookup does not clamp its
coordinates (only the contrast neighborhood of `getContrastAroundPoint`
clamps, to `[0, width-1] × [0, height-1]`); for coordinates already inside
the frame bounds of a well-formed frame, the lookup is defined and the
brightness is normalized to `[0, 1]`. -/
theorem C8_amended (f : Frame) (x y : ℤ) (hwf : f.WellFormed)
    (hx0 : 0 ≤ x) (hx : x < (f.width : ℤ)) (hy0 : 0 ≤ y) (hy : y < (f.height : ℤ)) :
    (∃ q : ℚ, getBrightnessAtPoint (some f) x y = some q ∧ 0 ≤ q ∧ q ≤ 1) ∧
    (∀ c : ℤ, 0 ≤ clampCoord ((f.width : ℤ) - 1) c ∧
      clampCoord ((f.width : ℤ) - 1) c ≤ (f.width : ℤ) - 1) := by
  obtain ⟨hlen, hbyte⟩ := hwf
  have hlen' : (f.data.length : ℤ) = 4 * (f.width : ℤ) * (f.height : ℤ) := by
    exact_mod_cast hlen
  constructor
  · have hx' : x ≤ (f.width : ℤ) - 1 := by omega
    have hy' : y ≤ (f.height : ℤ) - 1 := by omega
    have hw0 : (0 : ℤ) ≤ (f.width : ℤ) := by omega
    have hrow : y * (f.width : ℤ) ≤ ((f.height : ℤ) - 1) * (f.width : ℤ) :=
      mul_le_mul_of_nonneg_right hy' hw0
    have hcell : y * (f.width : ℤ) + x ≤ (f.height : ℤ) * (f.width : ℤ) - 1 := by
      have hexp : ((f.height : ℤ) - 1) * (f.width : ℤ) =
          (f.height : ℤ) * (f.width : ℤ) - (f.width : ℤ) := by ring
      linarith
    have hcell0 : 0 ≤ y * (f.width : ℤ) + x :=
      add_nonneg (mul_nonneg hy0 hw0) hx0
    have hidx0 : 0 ≤ (y * (f.width : ℤ) + x) * 4 := by linarith
    have hidx2 : (y * (f.width : ℤ) + x) * 4 + 2 < (f.data.length : ℤ) := by
      rw [hlen']
      linarith
    have hj0 : ((y * (f.width : ℤ) + x) * 4).toNat < f.data.length := by omega
    have hj1 : ((y * (f.width : ℤ) + x) * 4 + 1).toNat < f.data.length := by omega
    have hj2 : ((y * (f.width : ℤ) + x) * 4 + 2).toNat < f.data.length := by omega
    have e0 : readChannel f.data ((y * (f.width : ℤ) + x) * 4) =
        some (f.data.get ⟨((y * (f.width : ℤ) + x) * 4).toNat, hj0⟩) :=
      dif_pos ⟨hidx0, hj0⟩
    have e1 : readChannel f.data ((y * (f.width : ℤ) + x) * 4 + 1) =
        some (f.data.get ⟨((y * (f.width : ℤ) + x) * 4 + 1).toNat, hj1⟩) :=
      dif_pos ⟨by omega, hj1⟩
    have e2 : readChannel f.data ((y * (f.width : ℤ) + x) * 4 + 2) =
        some (f.data.get ⟨((y * (f.width : ℤ) + x) * 4 + 2).toNat, hj2⟩) :=
      dif_pos ⟨by omega, hj2⟩
    have hb0 := hbyte _ (List.get_mem f.data _ hj0)
    have hb1 := hbyte _ (List.get_mem f.data _ hj1)
    have hb2 := hbyte _ (List.get_mem f.data _ hj2)
    refine ⟨(((f.data.get ⟨((y * (f.width : ℤ) + x) * 4).toNat, hj0⟩ : ℕ) : ℚ) +
        ((f.data.get ⟨((y * (f.width : ℤ) + x) * 4 + 1).toNat, hj1⟩ : ℕ) : ℚ) +
        ((f.data.get ⟨((y * (f.width : ℤ) + x) * 4 + 2).toNat, hj2⟩ : ℕ) : ℚ)) / (3 * 255),
      ?_, ?_, ?_⟩
    · simp only [getBrightnessAtPoint]
      rw [e0, e1, e2]
    · positivity
    · rw [div_le_one (by norm_num)]
      have c0 : ((f.data.get ⟨((y * (f.width : ℤ) + x) * 4).toNat, hj0⟩ : ℕ) : ℚ) ≤ 255 := by
        exact_mod_cast hb0
      have c1 : ((f.data.get ⟨((y * (f.width : ℤ) + x) * 4 + 1).toNat, hj1⟩ : ℕ) : ℚ) ≤ 255 := by
        exact_mod_cast hb1
      have c2 : ((f.data.get ⟨((y * (f.width : ℤ) + x) * 4 + 2).toNat, hj2⟩ : ℕ) : ℚ) ≤ 255 := by
        exact_mod_cast hb2
      linarith
  · intro c
    unfold clampCoord
    constructor
    · exact le_max_left 0 _
    · exact max_le (by omega) (min_le_left _ _)

/-- Claim C8 witness: on the well-formed 2×2 test frame, the in-bounds
lookup at (1, 0) is defined with brightness in `[0, 1]`, and the contrast
clamp maps every coordinate into `[0, width-1]`. -/
theorem C8_witness :
    (∃ q : ℚ, getBrightnessAtPoint (some testFrame) 1 0 = some q ∧ 0 ≤ q ∧ q ≤ 1) ∧
    (∀ c : ℤ, 0 ≤ clampCoord ((testFrame.width : ℤ) - 1) c ∧
      clampCoord ((testFrame.width : ℤ) - 1) c ≤ (testFrame.width : ℤ) - 1) :=
  C8_amended testFrame 1 0 (by decide) (by decide) (by decide) (by decide) (by decide)

/-- Claim C10: the per-voice computation of `updateAudio` is deterministic —
it is a function of the frame, the cursor position, and the configuration
fields it reads (voice count, base note, octave; speed is not even read), so
two states agreeing on those produce identical sample coordinates and
frequencies even if they differ in volume or oscillator type; and despite the
source comment "Randomize sample point location", voice `i` always samples at
`x = floor(cursorPosition)`, `y = floor(height / voiceCount * (i + 0.5))`. -/
theorem C10_deterministic (c1 c2 : VisControls) (f1 f2 : Frame) (p1 p2 : ℚ)
    (hv : c1.voiceCount = c2.voiceCount) (hb : c1.baseNote = c2.baseNote)
    (ho : c1.octave = c2.octave) (_hs : c1.cursorSpeed = c2.cursorSpeed)
    (hf : f1 = f2) (hp : p1 = p2) :
    voiceParams c1 f1 p1 = voiceParams c2 f2 p2 ∧
    ∀ i, i < c1.voiceCount →
      (voiceParams c1 f1 p1).getD i (0, 0, none) =
        (Int.floor p1,
          Int.floor ((f1.height : ℚ) / (c1.voiceCount : ℚ) * ((i : ℚ) + 1/2)),
          (colorValueAt f1 (Int.floor p1) (sampleY f1.height c1.voiceCount i)).map
            fun cv => visFrequency c1.baseNote c1.octave cv) := by
  subst hf hp
  constructor
  · unfold voiceParams
    rw [hv, hb, ho]
  · intro i hi
    rw [List.getD_eq_getElem _ _ (by simpa [voiceParams] using hi)]
    simp [voiceParams, sampleY]

/-- Claim C10 witness: two states sharing frame, cursor position, voice
count 2, base note C, octave 4 and speed 1 but differing in volume (−10 vs 0)
and waveform (sine vs square) produce identical per-voice parameters, with
the stated deterministic sample coordinates. -/
theorem C10_witness :
    voiceParams ⟨-10, 4, .C, 1, .sine, 2⟩ testFrame 0 =
      voiceParams ⟨0, 4, .C, 1, .square, 2⟩ testFrame 0 ∧
    ∀ i, i < 2 →
      (voiceParams ⟨-10, 4, .C, 1, .sine, 2⟩ testFrame 0).getD i (0, 0, none) =
        (Int.floor (0 : ℚ),
          Int.floor ((testFrame.height : ℚ) / ((2 : ℕ) : ℚ) * ((i : ℚ) + 1/2)),
          (colorValueAt testFrame (Int.floor (0 : ℚ)) (sampleY testFrame.height 2 i)).map
            fun cv => visFrequency .C 4 cv) :=
  C10_deterministic ⟨-10, 4, .C, 1, .sine, 2⟩ ⟨0, 4, .C, 1, .square, 2⟩ testFrame testFrame
    0 0 rfl rfl rfl rfl rfl rfl
